import Mathlib

/-!
Verification development for the nsrip DNS reconnaissance pipeline
(`nameservers.go` and `main.go`).

The Go code is embedded shallowly:

* External collaborators (the system resolver `net.LookupIP`, the DNS
  wire exchange `dns.Client.Exchange`, the filesystem) are passed in as
  oracle functions.
* Go strings are Lean `String`s; Go maps built by repeated assignment
  are association lists updated by `mapInsert` (replace the entry for an
  existing key, otherwise append), which preserves key uniqueness.
* Channel-based fan-out/fan-in is modelled by the sequence of values
  that flows through the channels: each job pushed produces exactly one
  result, and draining a channel is a fold over the arrival list.
* `int32` counters only ever hold small non-negative counts here, so
  they are modelled as `Nat`; the one floating-point computation (the
  progress percentage) is modelled by `GoFloat`, which is exact for the
  division-by-zero cases under study.
-/

namespace NsRip

/-! ## DNS messages and resource records

`dns.RR` values reaching the result sink are only ever inspected through
the three type assertions `*dns.A`, `*dns.CNAME`, `*dns.AAAA`; the
embedding keeps the data each branch extracts (`aRecord.A`,
`cnameRecord.Target`, `aaaaRecord.AAAA` as already-rendered strings) and,
for every other record type, the dynamic Go type name together with the
record's human-readable `String()` rendering. -/

inductive RR where
  | A (addr : String)
  | AAAA (addr : String)
  | CNAME (target : String)
  | Other (goType : String) (rendering : String)
deriving DecidableEq

/-- The slice of `dns.Msg` the program reads: the response code and the
answer section. -/
structure Msg where
  rcode : Nat
  answer : List RR
deriving DecidableEq

/-- `dns.RcodeSuccess`. -/
def RcodeSuccess : Nat := 0

/-! ## nameservers.go -/

/-- `resolveNameserver` (nameservers.go lines 9-17).  `lookupIP` is the
`net.LookupIP` collaborator: an error message, or the already-rendered
IP list. -/
def resolveNameserver (lookupIP : String → Except String (List String))
    (ns : String) : Except String String :=
  match lookupIP ns with
  | Except.error e => Except.error ("Failed to resolve nameserver: " ++ e)
  | Except.ok [] => Except.error ("No IP addresses found for nameserver: " ++ ns)
  | Except.ok (ip :: _) => Except.ok ip

/-- The body of `worker` (nameservers.go lines 23-30) for one job: the
single-entry map `{ns: ip}` it sends on the results channel, with `ip`
the empty string when resolution failed. -/
def resolveWorker (lookupIP : String → Except String (List String))
    (ns : String) : String × String :=
  match resolveNameserver lookupIP ns with
  | Except.error _ => (ns, "")
  | Except.ok ip => (ns, ip)

/-- The multiset of results produced by the resolution worker pool: one
result per occurrence of a hostname in the jobs channel (lines 46-48
push every input hostname once; each worker handles each received job
once). -/
def attempts (nameservers : List String)
    (lookupIP : String → Except String (List String)) : List (String × String) :=
  nameservers.map (resolveWorker lookupIP)

/-- Go map assignment `m[k] = v` on an association list: replace the
entry for `k` if present, otherwise append. -/
def mapInsert : List (String × String) → String → String → List (String × String)
  | [], k, v => [(k, v)]
  | p :: rest, k, v => if p.1 = k then (k, v) :: rest else p :: mapInsert rest k v

/-- Go map lookup `m[k]` (without the zero-value default). -/
def assocFind : List (String × String) → String → Option String
  | [], _ => none
  | p :: rest, k => if p.1 = k then some p.2 else assocFind rest k

/-- The drain loop of `resolveNameservers` (nameservers.go lines 56-60):
for each arriving result pair `(ns, ip)`, perform `resultsMap[ip] = ns`.
The arrival order of results is scheduler-dependent, so the drain is
stated over an arbitrary arrival list. -/
def drainResults (arrivals : List (String × String)) : List (String × String) :=
  arrivals.foldl (fun m p => mapInsert m p.2 p.1) []

/-- `resolveNameservers` (nameservers.go lines 33-63): resolve every
hostname and drain the results into the IP-keyed map. -/
def resolveNameservers (nameservers : List String)
    (lookupIP : String → Except String (List String)) : List (String × String) :=
  drainResults (attempts nameservers lookupIP)

/-- Modelled from the spec: the hostname of the last result pair in
arrival order whose IP is `ip` ("last writer wins"). -/
def lastWriter : List (String × String) → String → Option String
  | [], _ => none
  | p :: rest, ip =>
    match lastWriter rest ip with
    | some h => some h
    | none => if p.2 = ip then some p.1 else none

/-! ## queryDNS (main.go lines 29-45) -/

/-- `queryDNS`: the `exch` oracle is `dns.Client.Exchange` of the
A-record question for the domain against the nameserver address, with
the 5-second timeout folded into the oracle (a timeout is an
`Except.error`). -/
def queryDNS (domain nameserver : String)
    (exch : String → String → Except String Msg) : Except String Msg :=
  match exch domain nameserver with
  | Except.error e => Except.error e
  | Except.ok r =>
    if r.rcode ≠ RcodeSuccess then
      Except.error ("No answer from nameserver: " ++ nameserver)
    else
      Except.ok r

/-! ## Composite job keys and `strings.Split(query, "|")` -/

/-- `strings.Split(s, "|")` on the character list of `s`. -/
def splitBarChars : List Char → List (List Char)
  | [] => [[]]
  | c :: rest =>
    if c = '|' then [] :: splitBarChars rest
    else
      match splitBarChars rest with
      | [] => [[c]]
      | h :: t => (c :: h) :: t

/-- `strings.Split(s, "|")` (main.go line 250). -/
def goSplitBar (s : String) : List String :=
  (splitBarChars s.data).map (fun cs => String.mk cs)

/-- The `wrappedAnswer` struct (main.go lines 178-182). -/
structure WrappedAnswer where
  nsIP : String
  domain : String
  answer : Msg
deriving DecidableEq

/-- The body of a query worker for one job string (main.go lines
249-272): how much the job adds to the `progress` counter, and the
answer (if any) pushed on the answer channel.  A malformed job (split
size ≠ 2) is skipped before the query, so it adds nothing; otherwise the
counter is incremented exactly once, whether `queryDNS` failed or not. -/
def processJob (exch : String → String → Except String Msg)
    (job : String) : Nat × Option WrappedAnswer :=
  match goSplitBar job with
  | [domain, nsIP] =>
    match queryDNS domain (nsIP ++ ":53") exch with
    | Except.error _ => (1, none)
    | Except.ok resp => (1, some ⟨nsIP, domain, resp⟩)
  | _ => (0, none)

/-- The dispatch loop (main.go lines 277-288): outer loop over the
entries of the nameserver map, skipping the empty-string key; inner loop
over the domains, pushing `domain ++ "|" ++ nsIP`. -/
def dispatchJobs : List (String × String) → List String → List String
  | [], _ => []
  | p :: rest, domains =>
    (if p.1 = "" then [] else domains.map (fun d => d ++ "|" ++ p.1))
      ++ dispatchJobs rest domains

/-- The value of the `progress` counter once the workers have drained
the whole job channel: every job is processed exactly once by exactly
one worker, and each `atomic.AddInt32` adds its increment. -/
def finalProgress (exch : String → String → Except String Msg)
    (jobs : List String) : Nat :=
  (jobs.map (fun j => (processJob exch j).1)).sum

/-- `sampleSize := numDomains * numNameservers` (main.go lines 139-141),
stored into `total` before dispatch (line 176). -/
def sampleSize (domainsList nameservers : List String) : Nat :=
  domainsList.length * nameservers.length

/-! ## The result sink (main.go lines 200-240) -/

inductive ConsoleColor where
  | green
  | yellow
deriving DecidableEq

/-- One observable output action of the result consumer: a write of a
string to the output file, or a colored console print. -/
inductive SinkEvent where
  | fileWrite (text : String)
  | consolePrint (c : ConsoleColor) (text : String)
deriving DecidableEq

/-- The `outputStr` built for one answer record and its color
(main.go lines 212-236).  The three classified branches render
`"[%s (%s)] %s => %s\n"`.  The `else` branch passes four arguments to
the three-verb format `"[%s (%s)] %s\n"`; Go's `fmt` then appends the
unconsumed argument as `"%!(EXTRA <type>=<value>)"` after the formatted
text, with the record rendered through its `String` method. -/
def recordLine (nsName nsIP domain : String) : RR → ConsoleColor × String
  | RR.A addr =>
    (ConsoleColor.green,
      "[" ++ nsName ++ " (" ++ nsIP ++ ")] " ++ domain ++ " => " ++ addr ++ "\n")
  | RR.CNAME target =>
    (ConsoleColor.green,
      "[" ++ nsName ++ " (" ++ nsIP ++ ")] " ++ domain ++ " => " ++ target ++ "\n")
  | RR.AAAA addr =>
    (ConsoleColor.green,
      "[" ++ nsName ++ " (" ++ nsIP ++ ")] " ++ domain ++ " => " ++ addr ++ "\n")
  | RR.Other goType rendering =>
    (ConsoleColor.yellow,
      "[" ++ nsName ++ " (" ++ nsIP ++ ")] " ++ domain ++ "\n"
        ++ "%!(EXTRA " ++ goType ++ "=" ++ rendering ++ ")")

/-- The inner `for _, answer := range resp.Answer` loop: for each record
the same `outputStr` is first written to the output file when one is
configured (`fHandle != nil`) and then printed to the console. -/
def renderRecords (fileConfigured : Bool) (nsName nsIP domain : String) :
    List RR → List SinkEvent
  | [] => []
  | r :: rs =>
    (if fileConfigured then [SinkEvent.fileWrite (recordLine nsName nsIP domain r).2] else [])
      ++ [SinkEvent.consolePrint (recordLine nsName nsIP domain r).1
            (recordLine nsName nsIP domain r).2]
      ++ renderRecords fileConfigured nsName nsIP domain rs

/-- The consumer body for one `wrappedAnswer` (main.go lines 203-239):
look up the nameserver name (Go map indexing defaults to the zero value
`""` for a missing key) and, only when the answer section is non-empty,
render each record. -/
def processResult (fileConfigured : Bool) (mapped : List (String × String))
    (w : WrappedAnswer) : List SinkEvent :=
  let nsName := (assocFind mapped w.nsIP).getD ""
  if w.answer.answer.length > 0 then
    renderRecords fileConfigured nsName w.nsIP w.domain w.answer.answer
  else
    []

/-! ## Answer classification

The spec's `ClassifiedRecord` data model.  The code-side classification
is the branch structure of the sink loop (type-assertion order `*dns.A`,
`*dns.CNAME`, `*dns.AAAA`, `else`, extracting `aRecord.A`,
`cnameRecord.Target`, `aaaaRecord.AAAA`, and the record itself); the
spec-side classification follows the spec's wording (address record →
`A`, quad-A record → `AAAA`, canonical-name record → `CNAME`, anything
else → `Other`). -/

inductive ClassifiedRecord where
  | A (addr : String)
  | AAAA (addr : String)
  | CNAME (target : String)
  | Other (rendering : String)
deriving DecidableEq

/-- Classification as performed by the sink's `if`/`else if` chain, in
the code's branch order (main.go lines 212-236). -/
def classifyRecord : RR → ClassifiedRecord
  | RR.A addr => ClassifiedRecord.A addr
  | RR.CNAME target => ClassifiedRecord.CNAME target
  | RR.AAAA addr => ClassifiedRecord.AAAA addr
  | RR.Other _ rendering => ClassifiedRecord.Other rendering

/-- The record-by-record recursion of the sink loop's classification. -/
def classifyGo : List RR → List ClassifiedRecord
  | [] => []
  | r :: rs => classifyRecord r :: classifyGo rs

/-- The sink loop's classification of a whole response, with the
enclosing `len(resp.Answer) > 0` guard (main.go lines 210-237). -/
def classifyAnswer (resp : Msg) : List ClassifiedRecord :=
  if resp.answer.length > 0 then classifyGo resp.answer else []

/-- Modelled from the spec: positional classification in the spec's own
case order (address record → `A`, quad-A record → `AAAA`, canonical-name
record → `CNAME` storing the target, anything else → `Other` storing a
human-readable rendering). -/
def specClassify : RR → ClassifiedRecord
  | RR.A addr => ClassifiedRecord.A addr
  | RR.AAAA addr => ClassifiedRecord.AAAA addr
  | RR.CNAME target => ClassifiedRecord.CNAME target
  | RR.Other _ rendering => ClassifiedRecord.Other rendering

/-! ## The progress reporter (main.go lines 150-167) -/

/-- A `float64` value as far as the reporter can observe it: exact for
finite values, with the IEEE division-by-zero outcomes kept explicit. -/
inductive GoFloat where
  | finite (q : ℚ)
  | posInf
  | negInf
  | nan
deriving DecidableEq

/-- Go `float64` division as the reporter uses it: both operands are
`int32` values converted to `float64` (exact, since `|int32| * 100`
fits a double), and division by zero does not trap but yields NaN (for
`0/0`) or a signed infinity; a nonzero denominator gives the (here
exact-rational) quotient. -/
def goFloatDiv (x y : Int) : GoFloat :=
  if y = 0 then
    if x = 0 then GoFloat.nan
    else if 0 < x then GoFloat.posInf
    else GoFloat.negInf
  else GoFloat.finite ((x : ℚ) / (y : ℚ))

/-- The progress line printed on each operator keypress. -/
structure ProgressLine where
  completed : Int
  total : Int
  percent : GoFloat
deriving DecidableEq

/-- One iteration of the reporter loop after a successful `ReadString`
(main.go lines 159-165): load both counters and print
`"[~] Progress: %d/%d (%.2f%%)"` with the percentage computed as
`float64(val1)*100/float64(val2)`, unconditionally — `none` (suppressed
output) is never produced. -/
def reporterLine (completed total : Int) : Option ProgressLine :=
  some { completed := completed, total := total,
         percent := goFloatDiv (completed * 100) total }

/-! ## The `main` startup sequence (main.go lines 47-295)

The trace of externally visible actions of one run, in program order:
console banner printing, `log.Fatalf` exits (which truncate the trace),
`os.Open`/`os.OpenFile` calls, per-hostname resolution attempts, and DNS
queries.  Purely in-memory steps (flag parsing into `Config`, the
provider-map lookup, counter stores) produce no event. -/

/-- The parsed command-line flags (main.go lines 72-80). -/
structure Config where
  domain : String
  domainsFile : String
  cloudProvider : String
  numWorkers : Int
  quietMode : Bool
  verboseMode : Bool
  outputFile : String

inductive Event where
  | banner
  | fatal (msg : String)
  | fileOpen (name : String)
  | resolveAttempt (host : String)
  | dnsQuery (domain : String) (addr : String)
deriving DecidableEq

/-- The `validProviders` map (main.go lines 19-24). -/
def validProvidersMap (p : String) : Option (List String) :=
  if p = "aws" then some ["nslists/aws.txt"]
  else if p = "azure" then some ["nslists/azure.txt"]
  else if p = "gcp" then some ["nslists/gcp.txt"]
  else if p = "cloud" then
    some ["nslists/aws.txt", "nslists/azure.txt", "nslists/gcp.txt"]
  else none

/-- Lines 87-90: fall back to treating the provider name as a custom
file path. -/
def providerListsFor (p : String) : List String :=
  (validProvidersMap p).getD [p]

/-- The nameserver-list reading loop (main.go lines 96-112): open each
file in order, appending its lines; a failed open is fatal and stops the
run.  `fsOpen` returns the file's lines, or `none` when `os.Open`
fails. -/
def readListFiles (fsOpen : String → Option (List String)) :
    List String → List Event × Option (List String)
  | [] => ([], some [])
  | f :: rest =>
    match fsOpen f with
    | none => ([Event.fileOpen f, Event.fatal ("Error opening file " ++ f)], none)
    | some ls =>
      match readListFiles fsOpen rest with
      | (evs, r) => (Event.fileOpen f :: evs, r.map (fun acc => ls ++ acc))

/-- The domain-list phase (main.go lines 114-137). -/
def domainsPhase (cfg : Config) (fsOpen : String → Option (List String)) :
    List Event × Option (List String) :=
  if cfg.domainsFile ≠ "" then
    match fsOpen cfg.domainsFile with
    | none =>
      ([Event.fileOpen cfg.domainsFile,
        Event.fatal ("Error opening file " ++ cfg.domainsFile)], none)
    | some ls => ([Event.fileOpen cfg.domainsFile], some ls)
  else if cfg.domain = "" then
    ([Event.fatal "You must provide either a domain (-d) or a list of domains (-l)"], none)
  else
    ([], some [cfg.domain])

/-- The DNS queries issued by the worker pool for the dispatched jobs:
one `c.Exchange` against `nsIP ++ ":53"` per well-formed job. -/
def queryEvents : List String → List Event
  | [] => []
  | job :: rest =>
    (match goSplitBar job with
     | [d, nsIP] => [Event.dnsQuery d (nsIP ++ ":53")]
     | _ => []) ++ queryEvents rest

/-- The event trace of one run of `main` (main.go lines 47-295), in
program order: banner (unless quiet), the worker-count check (line 92),
nameserver-list files (lines 96-112), domain list (lines 114-137),
nameserver resolution (line 169), output-file creation (lines 190-197),
then the dispatched queries. -/
def mainRun (cfg : Config) (fsOpen : String → Option (List String))
    (lookupIP : String → Except String (List String))
    (_exch : String → String → Except String Msg) : List Event :=
  (if cfg.quietMode then [] else [Event.banner]) ++
  (if cfg.numWorkers ≤ 0 then
    [Event.fatal ("Invalid number of workers: " ++ toString cfg.numWorkers
      ++ ". It must be a positive integer.")]
  else
    match readListFiles fsOpen (providerListsFor cfg.cloudProvider) with
    | (evs, none) => evs
    | (evs, some nameservers) =>
      evs ++
      match domainsPhase cfg fsOpen with
      | (devs, none) => devs
      | (devs, some domainsList) =>
        devs
          ++ nameservers.map Event.resolveAttempt
          ++ (if cfg.outputFile = "" then [] else [Event.fileOpen cfg.outputFile])
          ++ queryEvents (dispatchJobs (resolveNameservers nameservers lookupIP) domainsList))

/-! ## Helper lemmas: `strings.Split` on composite job keys -/

theorem splitBarChars_no_bar (s : List Char) (hs : '|' ∉ s) :
    splitBarChars s = [s] := by
  induction s with
  | nil => rfl
  | cons c rest ih =>
    have hc : c ≠ '|' := fun h => hs (h ▸ List.mem_cons_self c rest)
    have hrest : '|' ∉ rest := fun h => hs (List.mem_cons_of_mem c h)
    simp [splitBarChars, hc, ih hrest]

theorem splitBarChars_append (xs : List Char) (hxs : '|' ∉ xs) (s : List Char)
    (h : List Char) (t : List (List Char)) (hs : splitBarChars s = h :: t) :
    splitBarChars (xs ++ s) = (xs ++ h) :: t := by
  induction xs with
  | nil => simpa using hs
  | cons c rest ih =>
    have hc : c ≠ '|' := fun hcc => hxs (hcc ▸ List.mem_cons_self c rest)
    have hrest : '|' ∉ rest := fun hm => hxs (List.mem_cons_of_mem c hm)
    simp [splitBarChars, hc, ih hrest]

theorem goSplitBar_encode (d ip : String) (hd : '|' ∉ d.data) (hip : '|' ∉ ip.data) :
    goSplitBar (d ++ "|" ++ ip) = [d, ip] := by
  have hdata : (d ++ "|" ++ ip).data = d.data ++ ('|' :: ip.data) := by
    simp [String.data_append]
  have hbar : splitBarChars ('|' :: ip.data) = [] :: [ip.data] := by
    simp [splitBarChars, splitBarChars_no_bar ip.data hip]
  have hsplit : splitBarChars (d.data ++ ('|' :: ip.data)) = (d.data ++ []) :: [ip.data] :=
    splitBarChars_append d.data hd _ _ _ hbar
  simp only [goSplitBar, hdata, hsplit, List.append_nil, List.map]

/-- A well-formed job increments the counter by exactly one and carries
the decomposed (domain, nameserver IP) through to `queryDNS`. -/
theorem processJob_encoded (exch : String → String → Except String Msg)
    (d ip : String) (hd : '|' ∉ d.data) (hip : '|' ∉ ip.data) :
    processJob exch (d ++ "|" ++ ip)
      = match queryDNS d (ip ++ ":53") exch with
        | Except.error _ => (1, none)
        | Except.ok resp => (1, some ⟨ip, d, resp⟩) := by
  simp [processJob, goSplitBar_encode d ip hd hip]

theorem processJob_encoded_fst (exch : String → String → Except String Msg)
    (d ip : String) (hd : '|' ∉ d.data) (hip : '|' ∉ ip.data) :
    (processJob exch (d ++ "|" ++ ip)).1 = 1 := by
  rw [processJob_encoded exch d ip hd hip]
  cases queryDNS d (ip ++ ":53") exch <;> rfl

/-! ## Helper lemmas: the Go map model -/

theorem assocFind_mapInsert_self (m : List (String × String)) (k v : String) :
    assocFind (mapInsert m k v) k = some v := by
  induction m with
  | nil => simp [mapInsert, assocFind]
  | cons p rest ih =>
    by_cases hp : p.1 = k
    · simp [mapInsert, hp, assocFind]
    · simp [mapInsert, hp, assocFind, ih]

theorem assocFind_mapInsert_ne (m : List (String × String)) (k v k' : String)
    (hne : k' ≠ k) : assocFind (mapInsert m k v) k' = assocFind m k' := by
  have hkk' : ¬(k = k') := fun h => hne h.symm
  induction m with
  | nil => simp [mapInsert, assocFind, hkk']
  | cons p rest ih =>
    by_cases hp : p.1 = k
    · have hpk' : ¬(p.1 = k') := fun h => hkk' (hp ▸ h)
      simp [mapInsert, hp, assocFind, hkk', hpk']
    · by_cases hp' : p.1 = k'
      · simp [mapInsert, hp, assocFind, hp', hne]
      · simp [mapInsert, hp, assocFind, hp', ih]

theorem mem_keys_mapInsert (m : List (String × String)) (k v x : String)
    (hx : x ∈ (mapInsert m k v).map Prod.fst) :
    x = k ∨ x ∈ m.map Prod.fst := by
  induction m with
  | nil => simpa [mapInsert] using hx
  | cons p rest ih =>
    by_cases hp : p.1 = k
    · simp only [mapInsert, hp, if_true, List.map_cons, List.mem_cons] at hx
      rcases hx with hx | hx
      · exact Or.inl hx
      · exact Or.inr (by simp [hx])
    · simp only [mapInsert, hp, if_false, List.map_cons, List.mem_cons] at hx
      rcases hx with hx | hx
      · exact Or.inr (by simp [hx])
      · rcases ih hx with h | h
        · exact Or.inl h
        · exact Or.inr (by simp [h])

theorem nodup_keys_mapInsert (m : List (String × String)) (k v : String)
    (hm : (m.map Prod.fst).Nodup) :
    ((mapInsert m k v).map Prod.fst).Nodup := by
  induction m with
  | nil => simp [mapInsert]
  | cons p rest ih =>
    simp only [List.map_cons, List.nodup_cons] at hm
    by_cases hp : p.1 = k
    · simp only [mapInsert, hp, if_true, List.map_cons, List.nodup_cons]
      exact ⟨hp ▸ hm.1, hm.2⟩
    · simp only [mapInsert, hp, if_false, List.map_cons, List.nodup_cons]
      refine ⟨fun hmem => ?_, ih hm.2⟩
      rcases mem_keys_mapInsert rest k v p.1 hmem with h | h
      · exact hp h
      · exact hm.1 h

theorem mem_mapInsert (m : List (String × String)) (k v : String)
    (p : String × String) (hp : p ∈ mapInsert m k v) :
    p = (k, v) ∨ p ∈ m := by
  induction m with
  | nil => simpa [mapInsert] using hp
  | cons q rest ih =>
    by_cases hq : q.1 = k
    · simp only [mapInsert, hq, if_true, List.mem_cons] at hp
      rcases hp with hp | hp
      · exact Or.inl hp
      · exact Or.inr (List.mem_cons_of_mem q hp)
    · simp only [mapInsert, hq, if_false, List.mem_cons] at hp
      rcases hp with hp | hp
      · exact Or.inr (hp ▸ List.mem_cons_self q rest)
      · rcases ih hp with h | h
        · exact Or.inl h
        · exact Or.inr (List.mem_cons_of_mem q h)

/-! ## Helper lemmas: draining the resolution results -/

theorem assocFind_drain_fold (arrivals : List (String × String)) :
    ∀ (m : List (String × String)) (ip : String),
      assocFind (arrivals.foldl (fun m p => mapInsert m p.2 p.1) m) ip
        = match lastWriter arrivals ip with
          | some h => some h
          | none => assocFind m ip := by
  induction arrivals with
  | nil => intro m ip; rfl
  | cons q rest ih =>
    intro m ip
    simp only [List.foldl_cons, lastWriter]
    rw [ih (mapInsert m q.2 q.1) ip]
    cases hlw : lastWriter rest ip with
    | some h => rfl
    | none =>
      by_cases hq : q.2 = ip
      · simpa [hq] using assocFind_mapInsert_self m q.2 q.1
      · simpa [hq] using assocFind_mapInsert_ne m q.2 q.1 ip (fun h => hq h.symm)

theorem nodup_keys_drain_fold (arrivals : List (String × String)) :
    ∀ m : List (String × String), (m.map Prod.fst).Nodup →
      ((arrivals.foldl (fun m p => mapInsert m p.2 p.1) m).map Prod.fst).Nodup := by
  induction arrivals with
  | nil => intro m hm; exact hm
  | cons q rest ih =>
    intro m hm
    exact ih (mapInsert m q.2 q.1) (nodup_keys_mapInsert m q.2 q.1 hm)

theorem mem_drain_fold (arrivals : List (String × String)) :
    ∀ (m : List (String × String)) (p : String × String),
      p ∈ arrivals.foldl (fun m p => mapInsert m p.2 p.1) m →
      p ∈ m ∨ (p.2, p.1) ∈ arrivals := by
  induction arrivals with
  | nil => intro m p hp; exact Or.inl hp
  | cons q rest ih =>
    intro m p hp
    rcases ih (mapInsert m q.2 q.1) p hp with h | h
    · rcases mem_mapInsert m q.2 q.1 p h with h' | h'
      · right
        have : (p.2, p.1) = q := by
          rcases p with ⟨p1, p2⟩
          rcases q with ⟨q1, q2⟩
          simp only [Prod.mk.injEq] at h' ⊢
          exact ⟨h'.2, h'.1⟩
        exact this ▸ List.mem_cons_self q rest
      · exact Or.inl h'
    · exact Or.inr (List.mem_cons_of_mem q h)

/-- The drained map has unique IP keys and retains, for each IP, the
hostname of the last arriving result pair with that IP. -/
theorem drainResults_spec (arrivals : List (String × String)) :
    ((drainResults arrivals).map Prod.fst).Nodup
    ∧ ∀ ip, assocFind (drainResults arrivals) ip = lastWriter arrivals ip := by
  constructor
  · exact nodup_keys_drain_fold arrivals [] (by simp)
  · intro ip
    rw [drainResults, assocFind_drain_fold arrivals [] ip]
    cases hlw : lastWriter arrivals ip <;> simp [assocFind]

/-! ## Helper lemmas: dispatch and progress accounting -/

theorem mem_dispatchJobs (mapped : List (String × String)) (domains : List String)
    (job : String) (hjob : job ∈ dispatchJobs mapped domains) :
    ∃ p, p ∈ mapped ∧ p.1 ≠ "" ∧ ∃ d, d ∈ domains ∧ job = d ++ "|" ++ p.1 := by
  induction mapped with
  | nil => simp [dispatchJobs] at hjob
  | cons p rest ih =>
    simp only [dispatchJobs, List.mem_append] at hjob
    rcases hjob with hjob | hjob
    · by_cases hp : p.1 = ""
      · simp [hp] at hjob
      · simp only [hp, if_false, List.mem_map] at hjob
        rcases hjob with ⟨d, hd, hjd⟩
        exact ⟨p, List.mem_cons_self p rest, hp, d, hd, hjd.symm⟩
    · rcases ih hjob with ⟨q, hq, hq1, d, hd, hjd⟩
      exact ⟨q, List.mem_cons_of_mem p hq, hq1, d, hd, hjd⟩

theorem finalProgress_append (exch : String → String → Except String Msg)
    (a b : List String) :
    finalProgress exch (a ++ b) = finalProgress exch a + finalProgress exch b := by
  simp [finalProgress]

theorem finalProgress_block (exch : String → String → Except String Msg)
    (domains : List String) (ip : String)
    (hdom : ∀ d, d ∈ domains → '|' ∉ d.data) (hip : '|' ∉ ip.data) :
    finalProgress exch (domains.map (fun d => d ++ "|" ++ ip)) = domains.length := by
  induction domains with
  | nil => rfl
  | cons d rest ih =>
    have hd : '|' ∉ d.data := hdom d (List.mem_cons_self d rest)
    have hrest : ∀ d', d' ∈ rest → '|' ∉ d'.data :=
      fun d' hd' => hdom d' (List.mem_cons_of_mem d hd')
    simp only [List.map_cons, finalProgress, List.sum_cons] at ih ⊢
    rw [processJob_encoded_fst exch d ip hd hip, ih hrest, List.length_cons]
    omega

/-! ## Helper lemmas: classification -/

theorem classifyGo_eq_map (rs : List RR) : classifyGo rs = rs.map specClassify := by
  induction rs with
  | nil => rfl
  | cons r rest ih =>
    cases r <;> simp [classifyGo, classifyRecord, specClassify, ih]

/-! ## Claims -/

/-- C1, counterexample: with one domain and one nameserver hostname that
fails to resolve, the stored total is `1 * 1 = 1` but the dispatch loop
skips the empty-string key, no job is ever processed, and the completed
counter stays at `0` after the job channel is drained — so the completed
counter does not equal the stored total. -/
theorem C1_counterexample :
    finalProgress (fun _ _ => Except.error "i/o timeout")
        (dispatchJobs
          (resolveNameservers ["ns1.bad"] (fun _ => Except.error "no such host"))
          ["a.test"]) = 0
    ∧ sampleSize ["a.test"] ["ns1.bad"] = 1
    ∧ finalProgress (fun _ _ => Except.error "i/o timeout")
        (dispatchJobs
          (resolveNameservers ["ns1.bad"] (fun _ => Except.error "no such host"))
          ["a.test"])
      ≠ sampleSize ["a.test"] ["ns1.bad"] := by
  refine ⟨rfl, rfl, ?_⟩
  decide

/-- C1, amended: every job dispatched for a (domain, resolved nameserver
IP) pair whose components are free of the `"|"` delimiter increments the
completed counter exactly once, whether the query succeeds or fails, and
after the workers drain the job channel the completed counter equals
(number of non-empty IP keys in the nameserver map) × (number of
domains) — which equals the stored total `numDomains * numNameservers`
only when every hostname resolved and all resolved IPs are distinct. -/
theorem C1_amended_accounting :
    ∀ (exch : String → String → Except String Msg)
      (mapped : List (String × String)) (domains : List String),
      (∀ d, d ∈ domains → '|' ∉ d.data) →
      (∀ p, p ∈ mapped → '|' ∉ p.1.data) →
      (∀ job, job ∈ dispatchJobs mapped domains → (processJob exch job).1 = 1)
      ∧ finalProgress exch (dispatchJobs mapped domains)
          = (mapped.filter (fun p => p.1 != "")).length * domains.length := by
  intro exch mapped domains hdom hmap
  constructor
  · intro job hjob
    rcases mem_dispatchJobs mapped domains job hjob with ⟨p, hp, hp1, d, hd, hjd⟩
    rw [hjd]
    exact processJob_encoded_fst exch d p.1 (hdom d hd) (hmap p hp)
  · induction mapped with
    | nil => simp [finalProgress, dispatchJobs]
    | cons p rest ih =>
      have hp : '|' ∉ p.1.data := hmap p (List.mem_cons_self p rest)
      have hrest : ∀ q, q ∈ rest → '|' ∉ q.1.data :=
        fun q hq => hmap q (List.mem_cons_of_mem p hq)
      simp only [dispatchJobs]
      rw [finalProgress_append]
      by_cases hp1 : p.1 = ""
      · simp only [hp1, if_true]
        have : finalProgress exch [] = 0 := rfl
        rw [this, ih hrest]
        simp [List.filter_cons, hp1]
      · simp only [hp1, if_false]
        rw [finalProgress_block exch domains p.1 hdom hp, ih hrest]
        have : (List.filter (fun p => p.1 != "") (p :: rest))
            = p :: List.filter (fun p => p.1 != "") rest := by
          simp [List.filter_cons, hp1]
        rw [this, List.length_cons]
        ring

/-- C1, witness for the amended accounting at a concrete map with one
resolved and one unresolved nameserver. -/
theorem C1_amended_accounting_witness :
    finalProgress (fun _ _ => Except.error "i/o timeout")
        (dispatchJobs [("1.1.1.1", "ns-ok"), ("", "ns-bad")] ["a.test"])
      = (List.filter (fun p => p.1 != "") [("1.1.1.1", "ns-ok"), ("", "ns-bad")]).length
          * (["a.test"] : List String).length :=
  (C1_amended_accounting (fun _ _ => Except.error "i/o timeout")
    [("1.1.1.1", "ns-ok"), ("", "ns-bad")] ["a.test"]
    (by decide) (by decide)).2

/-- C2, counterexample: a hostname that fails resolution contributes the
pair `(hostname, "")` on the results channel, and the drain loop then
executes `resultsMap[""] = hostname` — so the returned mapping does
contain an empty-string key mapped from the failed hostname,
contradicting the claim's first half. -/
theorem C2_counterexample :
    resolveNameservers ["ns1.bad"] (fun _ => Except.error "no such host")
      = [("", "ns1.bad")]
    ∧ assocFind (resolveNameservers ["ns1.bad"] (fun _ => Except.error "no such host")) ""
      = some "ns1.bad"
    ∧ resolveNameserver (fun _ => Except.error "no such host") "ns1.bad"
      = Except.error "Failed to resolve nameserver: no such host" :=
  ⟨rfl, rfl, rfl⟩

/-- C2, amended: hostnames that fail resolution are recorded under the
empty-string IP key (so the mapping does contain an empty-string key
whenever some hostname fails), but the dispatch loop skips that key, so
every dispatched job targets a non-empty IP that some input hostname
successfully resolved to — no query is ever dispatched against a
nameserver whose resolution failed. -/
theorem C2_amended_no_dispatch_to_failed :
    ∀ (nameservers : List String) (lookupIP : String → Except String (List String))
      (domains : List String) (job : String),
      job ∈ dispatchJobs (resolveNameservers nameservers lookupIP) domains →
      ∃ ip, ip ≠ ""
        ∧ (∃ h, h ∈ nameservers ∧ resolveNameserver lookupIP h = Except.ok ip)
        ∧ ∃ d, d ∈ domains ∧ job = d ++ "|" ++ ip := by
  intro nameservers lookupIP domains job hjob
  rcases mem_dispatchJobs _ domains job hjob with ⟨p, hp, hp1, d, hd, hjd⟩
  rcases mem_drain_fold (attempts nameservers lookupIP) [] p hp with h | h
  · simp at h
  · rcases List.mem_map.mp h with ⟨host, hhost, hw⟩
    refine ⟨p.1, hp1, ⟨host, hhost, ?_⟩, d, hd, hjd⟩
    rcases hres : resolveNameserver lookupIP host with e | ip
    · simp only [resolveWorker, hres] at hw
      exact absurd ((congrArg Prod.snd hw).symm) hp1
    · simp only [resolveWorker, hres] at hw
      exact congrArg Except.ok (congrArg Prod.snd hw)

/-- C2, witness for the amended claim: in a run with one resolving and
one failing hostname, the only dispatched job targets the resolved IP. -/
theorem C2_amended_no_dispatch_to_failed_witness :
    ∃ ip, ip ≠ ""
      ∧ (∃ h, h ∈ ["ns-ok", "ns-bad"]
          ∧ resolveNameserver
              (fun h => if h = "ns-ok" then Except.ok ["9.9.9.9"] else Except.error "no such host") h
            = Except.ok ip)
      ∧ ∃ d, d ∈ ["a.test"] ∧ "a.test|9.9.9.9" = d ++ "|" ++ ip :=
  C2_amended_no_dispatch_to_failed ["ns-ok", "ns-bad"]
    (fun h => if h = "ns-ok" then Except.ok ["9.9.9.9"] else Except.error "no such host")
    ["a.test"] "a.test|9.9.9.9" (by decide)

/-- C3: the result sink classifies the records of a forwarded response
positionally, in the order the server returned them, and its
classification agrees with the spec's per-record tagging (address →
`A`, quad-A → `AAAA`, canonical name → `CNAME` with the target, anything
else → `Other` with the rendering): the classified sequence is exactly
the positional map of the spec classification over the answer section. -/
theorem C3_classification_positional :
    ∀ resp : Msg, classifyAnswer resp = resp.answer.map specClassify := by
  intro resp
  rcases hr : resp.answer with _ | ⟨r, rest⟩
  · simp [classifyAnswer, hr]
  · simp [classifyAnswer, hr, classifyGo_eq_map]

/-- C4: `queryDNS` returns an answer exactly when the wire exchange
succeeds and the response code is `RcodeSuccess`; a transport/timeout
error is returned to the caller unchanged; and a successful exchange
with a non-success response code yields the error
`"No answer from nameserver: <nameserver>"` — with no answer value in
either failure case. -/
theorem C4_queryDNS_contract :
    ∀ (domain nameserver : String) (exch : String → String → Except String Msg),
      (∀ r, queryDNS domain nameserver exch = Except.ok r
          ↔ (exch domain nameserver = Except.ok r ∧ r.rcode = RcodeSuccess))
      ∧ (∀ e, exch domain nameserver = Except.error e →
          queryDNS domain nameserver exch = Except.error e)
      ∧ (∀ r, exch domain nameserver = Except.ok r → r.rcode ≠ RcodeSuccess →
          queryDNS domain nameserver exch
            = Except.error ("No answer from nameserver: " ++ nameserver)) := by
  intro domain nameserver exch
  refine ⟨fun r => ⟨fun hq => ?_, fun ⟨hex, hrc⟩ => ?_⟩, fun e he => ?_, fun r hex hrc => ?_⟩
  · rcases hex : exch domain nameserver with e | r'
    · rw [queryDNS, hex] at hq
      exact absurd hq (by simp)
    · rw [queryDNS, hex] at hq
      by_cases hrc : r'.rcode = RcodeSuccess
      · simp only [hrc, ne_eq, not_true_eq_false, if_false, Except.ok.injEq] at hq
        subst hq
        exact ⟨rfl, hrc⟩
      · simp [hrc] at hq
  · rw [queryDNS, hex]
    simp [hrc]
  · rw [queryDNS, he]
  · rw [queryDNS, hex]
    simp [hrc]

/-- C4, witness: a transport error is surfaced unchanged, and a
successful exchange with `RcodeSuccess` yields the response. -/
theorem C4_queryDNS_contract_witness :
    queryDNS "a.test" "1.2.3.4:53" (fun _ _ => Except.error "i/o timeout")
      = Except.error "i/o timeout"
    ∧ queryDNS "a.test" "1.2.3.4:53"
        (fun _ _ => Except.ok { rcode := 0, answer := [RR.A "9.9.9.9"] })
      = Except.ok { rcode := 0, answer := [RR.A "9.9.9.9"] } :=
  ⟨(C4_queryDNS_contract "a.test" "1.2.3.4:53" (fun _ _ => Except.error "i/o timeout")).2.1
      "i/o timeout" rfl,
    ((C4_queryDNS_contract "a.test" "1.2.3.4:53"
        (fun _ _ => Except.ok { rcode := 0, answer := [RR.A "9.9.9.9"] })).1
      { rcode := 0, answer := [RR.A "9.9.9.9"] }).mpr ⟨rfl, rfl⟩⟩

/-- C3, witness: the spec's own example — a response carrying
`[CNAME → x, A → 1.2.3.4]` classifies to exactly that sequence, in
order. -/
theorem C3_classification_positional_witness :
    classifyAnswer { rcode := 0, answer := [RR.CNAME "x", RR.A "1.2.3.4"] }
      = [ClassifiedRecord.CNAME "x", ClassifiedRecord.A "1.2.3.4"] :=
  (C3_classification_positional
    { rcode := 0, answer := [RR.CNAME "x", RR.A "1.2.3.4"] }).trans (by decide)

/-- C5: the progress reporter's percentage computation is not guarded.
When the stored total is zero the reporter still prints a line (output
is never suppressed) and the percentage is the IEEE outcome of a
division by zero — NaN for `0/0` and +Inf for a positive numerator —
never 100%. -/
theorem C5_reporter_division_by_zero :
    reporterLine 0 0
      = some { completed := 0, total := 0, percent := GoFloat.nan }
    ∧ reporterLine 5 0
      = some { completed := 5, total := 0, percent := GoFloat.posInf }
    ∧ GoFloat.nan ≠ GoFloat.finite 100
    ∧ GoFloat.posInf ≠ GoFloat.finite 100
    ∧ ∀ completed total : Int, reporterLine completed total ≠ none := by
  exact ⟨by decide, by decide, by decide, by decide,
    fun c t hc => Option.noConfusion hc⟩

/-- C6: draining the resolution results keeps the mapping keyed
uniquely by IP, and the hostname retained for each IP is the last
result pair written for that IP ("last writer wins"), both for an
arbitrary arrival order of worker results and in particular for
`resolveNameservers` — duplicate hostnames and IP collisions included,
with no possibility of a crash (the drain is total). -/
theorem C6_unique_keys_last_writer :
    (∀ arrivals : List (String × String),
        ((drainResults arrivals).map Prod.fst).Nodup
        ∧ ∀ ip, assocFind (drainResults arrivals) ip = lastWriter arrivals ip)
    ∧ ∀ (nameservers : List String) (lookupIP : String → Except String (List String)),
        ((resolveNameservers nameservers lookupIP).map Prod.fst).Nodup
        ∧ ∀ ip, assocFind (resolveNameservers nameservers lookupIP) ip
            = lastWriter (attempts nameservers lookupIP) ip :=
  ⟨drainResults_spec, fun ns lookupIP => drainResults_spec (attempts ns lookupIP)⟩

/-- C6, witness: two hostnames resolving to the same IP — the mapping
holds a single entry for that IP and the later hostname wins. -/
theorem C6_unique_keys_last_writer_witness :
    assocFind (resolveNameservers ["ns-a", "ns-b"] (fun _ => Except.ok ["1.1.1.1"]))
        "1.1.1.1" = some "ns-b" :=
  ((C6_unique_keys_last_writer.2 ["ns-a", "ns-b"]
      (fun _ => Except.ok ["1.1.1.1"])).2 "1.1.1.1").trans (by decide)

/-- C7: `resolveNameservers` is a total function into mappings: the
worker pool attempts every input hostname exactly once per occurrence
(duplicates are re-resolved, with no memoization), a per-hostname
resolution failure is absorbed as an `(hostname, "")` result instead of
an error, and the empty input yields the empty mapping. -/
theorem C7_resolve_total_function :
    ∀ (nameservers : List String) (lookupIP : String → Except String (List String)),
      (attempts nameservers lookupIP).map Prod.fst = nameservers
      ∧ (∀ h, (attempts nameservers lookupIP).count (resolveWorker lookupIP h)
            = nameservers.count h)
      ∧ (∀ h e, h ∈ nameservers → resolveNameserver lookupIP h = Except.error e →
            (h, "") ∈ attempts nameservers lookupIP)
      ∧ attempts [] lookupIP = []
      ∧ resolveNameservers [] lookupIP = [] := by
  intro ns lookupIP
  have hfst : ∀ h, (resolveWorker lookupIP h).1 = h := by
    intro h
    rcases hr : resolveNameserver lookupIP h with e | ip <;> simp [resolveWorker, hr]
  have hinj : Function.Injective (resolveWorker lookupIP) := by
    intro a b hab
    have hab' := congrArg Prod.fst hab
    rwa [hfst, hfst] at hab'
  have hcount : ∀ (l : List String) (h : String),
      (l.map (resolveWorker lookupIP)).count (resolveWorker lookupIP h) = l.count h := by
    intro l h
    induction l with
    | nil => rfl
    | cons a t ih =>
      simp only [List.map_cons, List.count_cons, ih]
      by_cases hha : h = a
      · simp [hha]
      · have hha' : ¬(a = h) := fun hc => hha hc.symm
        have hne' : ¬(resolveWorker lookupIP a = resolveWorker lookupIP h) :=
          fun hc => hha' (hinj hc)
        simp [hha', hne']
  refine ⟨?_, ?_, ?_, rfl, rfl⟩
  · rw [attempts, List.map_map]
    have hcomp : (Prod.fst ∘ resolveWorker lookupIP) = id := funext fun h => hfst h
    rw [hcomp, List.map_id]
  · intro h
    exact hcount ns h
  · intro h e hmem herr
    rw [attempts]
    exact List.mem_map.mpr ⟨h, hmem, by simp [resolveWorker, herr]⟩

/-- C7, witness: a failing hostname is still attempted and absorbed as
an `(hostname, "")` result rather than an error. -/
theorem C7_resolve_total_function_witness :
    ("ns1.bad", "") ∈ attempts ["ns1.bad"] (fun _ => Except.error "no such host") :=
  (C7_resolve_total_function ["ns1.bad"] (fun _ => Except.error "no such host")).2.2.1
    "ns1.bad" "Failed to resolve nameserver: no such host" (by decide) rfl

/-- C8: for an unclassified record type the sink does not emit
`"[<ns> (<ip>)] <domain>"` followed by the raw record rendering: the
format string `"[%s (%s)] %s\n"` receives a fourth argument, so the
emitted string carries the rendering wrapped in a `%!(EXTRA ...)`
formatting artifact after the newline (and the same artifact goes to
the output file, since both sinks receive the same `outputStr`). -/
theorem C8_other_record_extra_artifact :
    processResult true [("1.2.3.4", "ns1.example")]
        { nsIP := "1.2.3.4", domain := "a.test",
          answer := { rcode := 0,
                      answer := [RR.Other "*dns.TXT" "a.test. 300 IN TXT"] } }
      = [SinkEvent.fileWrite
           "[ns1.example (1.2.3.4)] a.test\n%!(EXTRA *dns.TXT=a.test. 300 IN TXT)",
         SinkEvent.consolePrint ConsoleColor.yellow
           "[ns1.example (1.2.3.4)] a.test\n%!(EXTRA *dns.TXT=a.test. 300 IN TXT)"]
    ∧ "[ns1.example (1.2.3.4)] a.test\n%!(EXTRA *dns.TXT=a.test. 300 IN TXT)"
        ≠ "[ns1.example (1.2.3.4)] a.test\n" ++ "a.test. 300 IN TXT" := by
  refine ⟨rfl, ?_⟩
  decide

/-- C9: a worker count ≤ 0 terminates the run with the descriptive
fatal message right after the banner: the whole event trace is the
banner (unless quiet) followed by the fatal exit, so no list file is
opened, no nameserver is resolved, no output file is created, and no
DNS query is issued. -/
theorem C9_invalid_workers_rejected_early :
    ∀ (cfg : Config) (fsOpen : String → Option (List String))
      (lookupIP : String → Except String (List String))
      (exch : String → String → Except String Msg),
      cfg.numWorkers ≤ 0 →
      mainRun cfg fsOpen lookupIP exch
        = (if cfg.quietMode then [] else [Event.banner])
          ++ [Event.fatal ("Invalid number of workers: " ++ toString cfg.numWorkers
                ++ ". It must be a positive integer.")]
      ∧ ∀ e, e ∈ mainRun cfg fsOpen lookupIP exch →
          (∀ f, e ≠ Event.fileOpen f)
          ∧ (∀ host, e ≠ Event.resolveAttempt host)
          ∧ (∀ d a, e ≠ Event.dnsQuery d a) := by
  intro cfg fsOpen lookupIP exch hw
  have htrace : mainRun cfg fsOpen lookupIP exch
      = (if cfg.quietMode then [] else [Event.banner])
        ++ [Event.fatal ("Invalid number of workers: " ++ toString cfg.numWorkers
              ++ ". It must be a positive integer.")] := by
    rw [mainRun, if_pos hw]
  refine ⟨htrace, fun e he => ?_⟩
  rw [htrace] at he
  rcases List.mem_append.mp he with he | he
  · cases hq : cfg.quietMode with
    | true => rw [hq] at he; simp at he
    | false =>
      rw [hq] at he
      simp at he
      subst he
      exact ⟨fun f hf => Event.noConfusion hf,
        fun host hh => Event.noConfusion hh,
        fun d a hda => Event.noConfusion hda⟩
  · simp only [List.mem_singleton] at he
    subst he
    exact ⟨fun f hf => Event.noConfusion hf,
      fun host hh => Event.noConfusion hh,
      fun d a hda => Event.noConfusion hda⟩

/-- C9, witness: with zero workers the whole run is the single fatal
event — no file open, no resolution, no query. -/
theorem C9_invalid_workers_rejected_early_witness :
    mainRun
        { domain := "", domainsFile := "", cloudProvider := "cloud",
          numWorkers := 0, quietMode := true, verboseMode := false, outputFile := "" }
        (fun _ => none) (fun _ => Except.error "no such host")
        (fun _ _ => Except.error "i/o timeout")
      = [Event.fatal "Invalid number of workers: 0. It must be a positive integer."] := by
  have h := (C9_invalid_workers_rejected_early
    { domain := "", domainsFile := "", cloudProvider := "cloud",
      numWorkers := 0, quietMode := true, verboseMode := false, outputFile := "" }
    (fun _ => none) (fun _ => Except.error "no such host")
    (fun _ _ => Except.error "i/o timeout") (by decide)).1
  exact h.trans (by decide)

/-- C10: a query whose response has a success code but an empty answer
section is still forwarded by the worker (with the progress counter
incremented once), yet the result consumer emits no console line and no
file line for it — an Answer with zero records is invisible at the
output interface. -/
theorem C10_empty_answer_invisible :
    ∀ (exch : String → String → Except String Msg) (d ip : String)
      (fileConfigured : Bool) (mapped : List (String × String)) (r : Msg),
      '|' ∉ d.data → '|' ∉ ip.data →
      exch d (ip ++ ":53") = Except.ok r →
      r.rcode = RcodeSuccess →
      r.answer = [] →
      processJob exch (d ++ "|" ++ ip) = (1, some ⟨ip, d, r⟩)
      ∧ processResult fileConfigured mapped ⟨ip, d, r⟩ = [] := by
  intro exch d ip fc mapped r hd hip hex hrc hans
  constructor
  · rw [processJob_encoded exch d ip hd hip]
    have hq : queryDNS d (ip ++ ":53") exch = Except.ok r := by
      rw [queryDNS, hex]
      simp [hrc]
    rw [hq]
  · simp [processResult, hans]

/-- C10, witness: a concrete empty-answer success response is forwarded
but renders nothing. -/
theorem C10_empty_answer_invisible_witness :
    processJob (fun _ _ => Except.ok { rcode := 0, answer := [] })
        ("a.test" ++ "|" ++ "1.2.3.4")
      = (1, some ⟨"1.2.3.4", "a.test", { rcode := 0, answer := [] }⟩)
    ∧ processResult true [("1.2.3.4", "ns1")]
        ⟨"1.2.3.4", "a.test", { rcode := 0, answer := [] }⟩ = [] :=
  C10_empty_answer_invisible (fun _ _ => Except.ok { rcode := 0, answer := [] })
    "a.test" "1.2.3.4" true [("1.2.3.4", "ns1")] { rcode := 0, answer := [] }
    (by decide) (by decide) rfl rfl rfl

end NsRip


